import Mathlib

/-!
Shallow embedding of the cross-org record browsing/editing engine
(`crossOrgRecordsViewer.js` and the record modal controller) together with
proofs about its specified behaviour.

JavaScript values that flow through the modal controller are modelled by
`JSVal`; table cell values by `Cell`; records (plain JS objects used as
string-keyed maps) by association lists.  Machine-level JS semantics that the
code relies on (`String(v)`, truthiness, `||` defaulting, `Date` parsing of
ISO-8601 strings, `Array.prototype.sort` stability) are modelled explicitly
and documented at each definition.
-/

/-- Model of a JavaScript value as it appears in the modal's `recordData`
maps: `null` covers both `null` and `undefined`; `wrapped v` models an object
carrying a `value` property (`{value: v}`). -/
inductive JSVal where
  | null : JSVal
  | str : String → JSVal
  | num : Int → JSVal
  | boolv : Bool → JSVal
  | wrapped : JSVal → JSVal
deriving DecidableEq, Repr

/-- JS `String(v)` for the values of `JSVal`.  `String` applied to a plain
object yields `"[object Object]"`; `null`/`undefined` never reach a
`String(...)` call in the paths modelled here because the code checks
`v == null` first. -/
def jsToString : JSVal → String
  | JSVal.null => "null"
  | JSVal.str s => s
  | JSVal.num n => toString n
  | JSVal.boolv b => if b then "true" else "false"
  | JSVal.wrapped _ => "[object Object]"

/-- JS falsiness for `JSVal` (used by `!v` and `if (v)` checks). -/
def jsFalsy : JSVal → Bool
  | JSVal.null => true
  | JSVal.str s => s = ""
  | JSVal.num n => n = 0
  | JSVal.boolv b => !b
  | JSVal.wrapped _ => false

/-- A JS object used as a string-keyed map (e.g. `this.recordData`). -/
abbrev Rec := List (String × JSVal)

/-- Property read `obj[k]`: the value at the first matching key, or
`undefined` (modelled as `JSVal.null`) when absent. -/
def jsGet (r : Rec) (k : String) : JSVal :=
  match r.find? (fun p => p.1 = k) with
  | some p => p.2
  | none => JSVal.null

/-- Property write `obj[k] = v` via spread (`{...obj, [k]: v}`): replaces an
existing binding in place, otherwise appends. -/
def jsSet (r : Rec) (k : String) (v : JSVal) : Rec :=
  match r with
  | [] => [(k, v)]
  | (k', v') :: rest => if k' = k then (k, v) :: rest else (k', v') :: jsSet rest k v

/-- String-valued variant of `jsSet` for the modal's auxiliary maps. -/
def jsSetS (r : List (String × String)) (k v : String) : List (String × String) :=
  match r with
  | [] => [(k, v)]
  | (k', v') :: rest => if k' = k then (k, v) :: rest else (k', v') :: jsSetS rest k v

/-- String map read with `''` for a missing key (`map[k] || ''`). -/
def jsGetS (r : List (String × String)) (k : String) : String :=
  match r.find? (fun p => p.1 = k) with
  | some p => p.2
  | none => ""

/-- Bool-valued variant of `jsSet` for the dropdown-open map. -/
def jsSetB (r : List (String × Bool)) (k : String) (v : Bool) : List (String × Bool) :=
  match r with
  | [] => [(k, v)]
  | (k', v') :: rest => if k' = k then (k, v) :: rest else (k', v') :: jsSetB rest k v

/-- JS `a || b` for an optional string `a` (absent and `''` are falsy). -/
def jsOrStr (a : Option String) (b : String) : String :=
  match a with
  | some s => if s = "" then b else s
  | none => b

/-- JS `String.prototype.trim()`: drop leading and trailing whitespace,
modelled structurally on the character list. -/
def jsTrim (s : String) : String :=
  String.mk (((s.data.dropWhile Char.isWhitespace).reverse.dropWhile Char.isWhitespace).reverse)

/-- JS `String.prototype.toLowerCase()` for the basic latin range, modelled
structurally on the character list. -/
def jsToLower (s : String) : String :=
  String.mk (s.data.map Char.toLower)

/-- `name.toLowerCase().endsWith('id')`: the last two characters are `i`,`d`
case-insensitively. -/
def endsWithIdCI (s : String) : Bool :=
  match (s.data.map Char.toLower).reverse with
  | 'd' :: 'i' :: _ => true
  | _ => false

/-- `name.slice(0, -2)`: drop the last two characters. -/
def strDropLast2 (s : String) : String :=
  String.mk s.data.dropLast.dropLast

/-! ### Validation Engine: `isValidEmail` / `isValidPhone` -/

/-- Characters allowed by the local part `[a-zA-Z0-9._%+-]` of `EMAIL_REGEX`. -/
def localChar (c : Char) : Bool :=
  c.isAlpha || c.isDigit || c = '.' || c = '_' || c = '%' || c = '+' || c = '-'

/-- Characters allowed by the domain part `[a-zA-Z0-9.-]` of `EMAIL_REGEX`. -/
def domChar (c : Char) : Bool :=
  c.isAlpha || c.isDigit || c = '.' || c = '-'

/-- Split a character list at the first occurrence of `c`. -/
def splitFirst (c : Char) : List Char → Option (List Char × List Char)
  | [] => none
  | x :: xs =>
    if x = c then some ([], xs)
    else
      match splitFirst c xs with
      | some (a, b) => some (x :: a, b)
      | none => none

/-- Split a character list at the last occurrence of `c`. -/
def splitLast (c : Char) (l : List Char) : Option (List Char × List Char) :=
  match splitFirst c l.reverse with
  | some (a, b) => some (b.reverse, a.reverse)
  | none => none

/-- Matcher for `EMAIL_REGEX = /^[a-zA-Z0-9._%+-]+@[a-zA-Z0-9.-]+\.[a-zA-Z]\x7b2,\x7d$/`:
a non-empty local part, one `@` (the character classes exclude `@`), a
non-empty domain, a final `.`, and an alphabetic TLD of length at least 2.
The TLD is the segment after the last `.` of the domain, since the TLD class
excludes `.`. -/
def emailMatches (s : String) : Bool :=
  match splitFirst '@' s.data with
  | none => false
  | some (lo, rest) =>
    match splitLast '.' rest with
    | none => false
    | some (pre, tld) =>
      !lo.isEmpty && lo.all localChar && !pre.isEmpty && pre.all domChar &&
        decide (2 ≤ tld.length) && tld.all Char.isAlpha

/-- `isValidEmail(s)`: `null`/`undefined` and blank input are valid; otherwise
the trimmed string must match `EMAIL_REGEX`. -/
def isValidEmail (v : JSVal) : Bool :=
  match v with
  | JSVal.null => true
  | _ =>
    if jsTrim (jsToString v) = "" then true
    else emailMatches (jsTrim (jsToString v))

/-- `isValidPhone(s)`: `null`/`undefined` and blank input are valid; otherwise
stripping all non-digit characters (`replace(/\D/g, '')`) must leave at least
10 digits. -/
def isValidPhone (v : JSVal) : Bool :=
  match v with
  | JSVal.null => true
  | _ =>
    if jsTrim (jsToString v) = "" then true
    else decide (10 ≤ ((jsToString v).data.filter Char.isDigit).length)

/-! ### Change-Set Engine: `normalizedValue` -/

/-- `daysInMonth` for the proleptic Gregorian calendar used by JS `Date`. -/
def daysInMonth (y m : Nat) : Nat :=
  if m = 2 then (if y % 4 = 0 && (y % 100 ≠ 0 || y % 400 = 0) then 29 else 28)
  else if m = 4 || m = 6 || m = 9 || m = 11 then 30
  else 31

/-- Parse a strict `YYYY-MM-DD` character sequence with in-range month and
day components, as accepted by the ISO date grammar of `new Date(...)`. -/
def dateOnlyParse (cs : List Char) : Option (Nat × Nat × Nat) :=
  match cs with
  | [y1, y2, y3, y4, '-', m1, m2, '-', d1, d2] =>
    if [y1, y2, y3, y4, m1, m2, d1, d2].all Char.isDigit then
      let y := ((y1.toNat - 48) * 1000 + (y2.toNat - 48) * 100 + (y3.toNat - 48) * 10 + (y4.toNat - 48))
      let m := (m1.toNat - 48) * 10 + (m2.toNat - 48)
      let d := (d1.toNat - 48) * 10 + (d2.toNat - 48)
      if 1 ≤ m && m ≤ 12 && 1 ≤ d && d ≤ daysInMonth y m then some (y, m, d) else none
    else none
  | _ => none

/-- Validity of the time-of-day part of an ISO-8601 UTC timestamp:
`HH:MM`, `HH:MM:SS` or `HH:MM:SS.mmm`, followed by `Z`. -/
def timeOfDayOk (cs : List Char) : Bool :=
  match cs with
  | [h1, h2, ':', n1, n2, 'Z'] =>
    [h1, h2, n1, n2].all Char.isDigit &&
      decide ((h1.toNat - 48) * 10 + (h2.toNat - 48) ≤ 23) &&
      decide ((n1.toNat - 48) * 10 + (n2.toNat - 48) ≤ 59)
  | [h1, h2, ':', n1, n2, ':', s1, s2, 'Z'] =>
    [h1, h2, n1, n2, s1, s2].all Char.isDigit &&
      decide ((h1.toNat - 48) * 10 + (h2.toNat - 48) ≤ 23) &&
      decide ((n1.toNat - 48) * 10 + (n2.toNat - 48) ≤ 59) &&
      decide ((s1.toNat - 48) * 10 + (s2.toNat - 48) ≤ 59)
  | [h1, h2, ':', n1, n2, ':', s1, s2, '.', x1, x2, x3, 'Z'] =>
    [h1, h2, n1, n2, s1, s2, x1, x2, x3].all Char.isDigit &&
      decide ((h1.toNat - 48) * 10 + (h2.toNat - 48) ≤ 23) &&
      decide ((n1.toNat - 48) * 10 + (n2.toNat - 48) ≤ 59) &&
      decide ((s1.toNat - 48) * 10 + (s2.toNat - 48) ≤ 59)
  | _ => false

/-- Model of `new Date(s)` followed by `toISOString().slice(0, 10)` for the
ISO-8601 UTC fragment of JS date parsing: a strict `YYYY-MM-DD` date,
optionally followed by `T` and a valid UTC time of day ending in `Z`.  A
date-only string is interpreted at UTC midnight, and a `Z` time of day never
changes the UTC calendar date, so the canonical `YYYY-MM-DD` rendering is the
(already zero-padded) date segment itself.  Engine-specific non-ISO formats
and non-UTC offsets are outside this model. -/
def jsDateCanonical (s : String) : Option String :=
  match splitFirst 'T' s.data with
  | none => (dateOnlyParse s.data).map (fun _ => s)
  | some (dcs, tcs) =>
    match dateOnlyParse dcs with
    | some _ => if timeOfDayOk tcs then some (String.mk dcs) else none
    | none => none

/-- `normalizedValue(val)`: `null`/`undefined` normalize to `''`; a `{value}`
wrapper is unwrapped recursively; otherwise the value is stringified and
trimmed, a blank result normalizes to `''`, a date-parseable result is
rendered as canonical `YYYY-MM-DD`, and anything else is the trimmed string. -/
def normalizedValue : JSVal → String
  | JSVal.null => ""
  | JSVal.wrapped v => normalizedValue v
  | v =>
    let s := jsTrim (jsToString v)
    if s = "" then ""
    else
      match jsDateCanonical s with
      | some c => c
      | none => s

/-! ### Lookup Resolver: `getLookupObjectForField` -/

/-- A raw field descriptor as delivered by configuration.  Field names and
flags appear in inconsistent casing in the wild, so the controller reads both
spellings; `none` models an absent (`undefined`) property. -/
structure FieldDef where
  fieldName : Option String := none
  FieldName : Option String := none
  label : Option String := none
  ftype : Option String := none
  required : Bool := false
  isExternalLookup : Bool := false
  IsExternalLookup : Bool := false
  lookupObjectApiName : Option String := none
  LookupObjectApiName : Option String := none
deriving DecidableEq, Repr

/-- The field name the controller uses: `f.fieldName || f.FieldName || ''`. -/
def fieldNameOf (f : FieldDef) : String :=
  jsOrStr f.fieldName (jsOrStr f.FieldName "")

/-- The server-configured lookup object of a field: the `?:` chain over
`fieldDef.lookupObjectApiName` and `fieldDef.LookupObjectApiName` (`!= null`
checks, trimmed), `''` when neither casing is present. -/
def lookupConfigured (f : FieldDef) : String :=
  match f.lookupObjectApiName with
  | some s => jsTrim s
  | none =>
    match f.LookupObjectApiName with
    | some s => jsTrim s
    | none => ""

/-- `getLookupObjectForField(fieldDef)`: the explicitly configured lookup
object (either casing, trimmed) when non-blank; otherwise, from the segment
of the field name after the last `.` (the `lastIndexOf('.')`/`slice` step,
modelled by `splitLast`), strip a trailing case-insensitive `id` when the
name is longer than 2 characters, mapping a stripped base of `owner`
(case-insensitively) to `User`; otherwise `''`. -/
def getLookupObjectForField (fieldDef : Option FieldDef) : String :=
  match fieldDef with
  | none => ""
  | some f =>
    let fromServer := lookupConfigured f
    if fromServer ≠ "" then fromServer
    else
      let name := jsTrim (fieldNameOf f)
      let name :=
        match splitLast '.' name.data with
        | some (_, after) => jsTrim (String.mk after)
        | none => name
      if 2 < name.length && endsWithIdCI name then
        let base := strDropLast2 name
        if jsToLower base = "owner" then "User" else base
      else ""

/-- Spec-side restatement of the lookup-target derivation rule, written from
the specification sentence: take the segment after the last `.` of the field
name; if that name's length exceeds 2 and it ends case-insensitively with
`id`, strip the trailing `id`, mapping a stripped base case-insensitively
equal to `owner` to the fixed entity type `User`; otherwise no target. -/
def lookupTargetSpecDerived (fieldName : String) : String :=
  let name := jsTrim fieldName
  let name :=
    match splitLast '.' name.data with
    | some (_, after) => jsTrim (String.mk after)
    | none => name
  if 2 < name.length && endsWithIdCI name then
    let strippedBase := strDropLast2 name
    if jsToLower strippedBase = "owner" then "User" else strippedBase
  else ""

/-! ### Record modal: state and `handleSave` -/

/-- A lookup dropdown option `{value, label}`. -/
structure Opt where
  value : String
  label : String
deriving DecidableEq, Repr

/-- Option-list-valued variant of `jsSet` for the lookup options map. -/
def jsSetOpts (r : List (String × List Opt)) (k : String) (v : List Opt) :
    List (String × List Opt) :=
  match r with
  | [] => [(k, v)]
  | (k', v') :: rest => if k' = k then (k, v) :: rest else (k', v') :: jsSetOpts rest k v

/-- State of the record modal controller (`CrossOrgRecordModal`).  The
`record`, `objectApiName`, `editFields` and `lookupLabels` components are the
`@api` inputs; the rest are the tracked fields mutated by the handlers.
`initialRecordValues` is the `_initialRecordValues` edit snapshot. -/
structure ModalState where
  record : Rec := []
  objectApiName : String := ""
  editFields : List FieldDef := []
  lookupLabels : List (String × String) := []
  recordData : Rec := []
  saveLoading : Bool := false
  errorMessage : String := ""
  externalLookupOptionsMap : List (String × List Opt) := []
  externalLookupSearchTerm : List (String × String) := []
  externalLookupDisplayMap : List (String × String) := []
  externalLookupDropdownOpen : List (String × Bool) := []
  initialRecordValues : Rec := []
deriving Repr

/-- `connectedCallback()`: seed `recordData` and the `_initialRecordValues`
snapshot from the input record, and prepopulate the lookup display map from
the provided labels. -/
def connectedCallbackState (record : Rec) (objectApiName : String)
    (editFields : List FieldDef) (lookupLabels : List (String × String)) : ModalState :=
  { record := record
    objectApiName := objectApiName
    editFields := editFields
    lookupLabels := lookupLabels
    recordData := record
    externalLookupDisplayMap := lookupLabels
    initialRecordValues := record }

/-- `get isEditMode()`: `!!(this.record && this.record.Id)`. -/
def isEditMode (st : ModalState) : Bool :=
  !jsFalsy (jsGet st.record "Id")

/-- Environment provided by the DOM to `handleSave`'s validity sweep:
`genericValid` aggregates `reportValidity()` over all `lightning-input` and
`lightning-combobox` elements after custom validities are cleared, and
`inputFound fn` tells whether `lightning-input[data-field=fn]` is rendered.
Per the constraint-validation contract, `reportValidity()` returns `false`
after `setCustomValidity('This field is required.')`. -/
structure DomEnv where
  genericValid : Bool := true
  inputFound : String → Bool := fun _ => true

/-- The required-external-lookup sweep of `handleSave`: some required lookup
field has a falsy working value and a rendered input, so its custom validity
is set and its `reportValidity()` fails. -/
def externalRequiredFails (fields : List FieldDef) (recordData : Rec) (dom : DomEnv) : Bool :=
  fields.any (fun f =>
    (f.isExternalLookup || f.IsExternalLookup) && f.required &&
      jsFalsy (jsGet recordData (fieldNameOf f)) && dom.inputFound (fieldNameOf f))

/-- The email/phone format sweep of `handleSave`: walk the fields in order,
skip blank values, and stop at the first field whose trimmed value fails its
format rule, returning that error message. -/
def firstFormatError (fields : List FieldDef) (recordData : Rec) : Option String :=
  match fields with
  | [] => none
  | f :: rest =>
    let fn := fieldNameOf f
    let rawType := jsToLower (jsOrStr f.ftype "text")
    let val := jsGet recordData fn
    if val = JSVal.null || jsTrim (jsToString val) = "" then firstFormatError rest recordData
    else
      let strVal := JSVal.str (jsTrim (jsToString val))
      if rawType = "email" && !isValidEmail strVal then
        some ("Invalid email format for " ++ jsOrStr f.label fn ++ ".")
      else if rawType = "phone" && !isValidPhone strVal then
        some ("Invalid phone format for " ++ jsOrStr f.label fn ++ ".")
      else firstFormatError rest recordData

/-- The body of the payload-building loop of `handleSave` for one field.  In
edit mode a field enters the payload iff its working value and snapshot value
differ after `normalizedValue`, carrying the raw working value (`''` when
cleared); in create mode every non-null, non-empty working value is sent. -/
def payloadStep (recordData initial : Rec) (isEdit : Bool) (payload : Rec) (f : FieldDef) : Rec :=
  let fn := fieldNameOf f
  let currentVal := jsGet recordData fn
  if isEdit then
    let initialVal := jsGet initial fn
    if normalizedValue currentVal ≠ normalizedValue initialVal then
      jsSet payload fn (if currentVal ≠ JSVal.null then currentVal else JSVal.str "")
    else payload
  else
    if currentVal ≠ JSVal.null && currentVal ≠ JSVal.str "" then jsSet payload fn currentVal
    else payload

/-- The payload-building loop of `handleSave` (`editFieldsList.forEach`). -/
def buildPayload (fields : List FieldDef) (recordData initial : Rec) (isEdit : Bool) : Rec :=
  fields.foldl (payloadStep recordData initial isEdit) []

/-- Outcome of one `handleSave()` attempt: a local rejection (an error
message is shown and no network call is made), or a network call to
`updateRecord` / `createRecord` with the built payload. -/
inductive SaveOutcome where
  | localError (msg : String)
  | callUpdate (payload : Rec)
  | callCreate (payload : Rec)
deriving DecidableEq, Repr

/-- Whether a save attempt was rejected locally. -/
def SaveOutcome.isLocalError : SaveOutcome → Bool
  | SaveOutcome.localError _ => true
  | _ => false

/-- `handleSave()`: guard the object type and record id, run the validity
sweeps (DOM constraint validation, required external lookups, email/phone
formats), build the change-set payload, reject an edit whose payload is
empty, and otherwise issue the update or create call. -/
def handleSave (st : ModalState) (dom : DomEnv) : SaveOutcome :=
  if jsTrim st.objectApiName = "" then SaveOutcome.localError "Object type is required."
  else if isEditMode st &&
      (jsFalsy (jsGet st.record "Id") || jsTrim (jsToString (jsGet st.record "Id")) = "") then
    SaveOutcome.localError "Record Id is required to update."
  else
    let formatErr := firstFormatError st.editFields st.recordData
    let allValid := dom.genericValid && !externalRequiredFails st.editFields st.recordData dom &&
      formatErr.isNone
    if !allValid then
      SaveOutcome.localError (jsOrStr formatErr "Please fix validation errors before saving.")
    else
      let payload := buildPayload st.editFields st.recordData st.initialRecordValues (isEditMode st)
      if isEditMode st && payload.isEmpty then SaveOutcome.localError "No fields were changed."
      else if isEditMode st then SaveOutcome.callUpdate payload
      else SaveOutcome.callCreate payload

/-- `handleSaveResponse(response, ...)` on a `{success: false}` response:
stop the spinner and surface `response.errorMessage || failMessage`; the
session state (`recordData`, snapshot, fields) is untouched. -/
def handleSaveResponseFailure (st : ModalState) (errorMessage : Option String)
    (failMessage : String) : ModalState :=
  { st with saveLoading := false, errorMessage := jsOrStr errorMessage failMessage }

/-- The `.catch` path of `updateRecord`/`createRecord`: stop the spinner and
surface the best-available message; the session state is untouched. -/
def saveRejected (st : ModalState) (message : Option String) (fallback : String) : ModalState :=
  { st with saveLoading := false, errorMessage := jsOrStr message fallback }

/-! ### Record modal: external lookup handlers -/

/-- The synchronous part of `handleExternalLookupInput(event)` on the modal
state: record the raw search term, clear the working value and the selected
label, and open the dropdown.  (The debounce timer it also restarts is
modelled by the per-field controller below.) -/
def handleExternalLookupInput (st : ModalState) (fieldName rawValue : String) : ModalState :=
  { st with
    externalLookupSearchTerm := jsSetS st.externalLookupSearchTerm fieldName rawValue
    recordData := jsSet st.recordData fieldName (JSVal.str "")
    externalLookupDisplayMap := jsSetS st.externalLookupDisplayMap fieldName ""
    externalLookupDropdownOpen := jsSetB st.externalLookupDropdownOpen fieldName true }

/-- `handleExternalLookupSelect(event)`: write the chosen option's value into
the working record, cache its label (`dataset.label || value`), and reset the
search state for the field. -/
def handleExternalLookupSelect (st : ModalState) (fieldName value : String)
    (label : Option String) : ModalState :=
  { st with
    recordData := jsSet st.recordData fieldName (JSVal.str value)
    externalLookupDisplayMap := jsSetS st.externalLookupDisplayMap fieldName (jsOrStr label value)
    externalLookupSearchTerm := jsSetS st.externalLookupSearchTerm fieldName ""
    externalLookupDropdownOpen := jsSetB st.externalLookupDropdownOpen fieldName false
    externalLookupOptionsMap := jsSetOpts st.externalLookupOptionsMap fieldName [] }

/-! ### Async Search Controller (per lookup field)

`handleExternalLookupInput` also drives a per-field debounce timer whose
callback resolves the lookup object and issues `searchExternalRecords`; the
`.then` callback writes the returned options into the options map and the
`.catch` callback does nothing.  The timer and network interleavings of one
field are modelled as an explicit event sequence over the state below. -/

/-- The per-field slice of the modal state touched by the lookup search
machinery, together with the scheduling artefacts: `pendingTimer` is the one
live debounce timer (carrying the search term its callback captured, already
trimmed), and `inFlight` lists the terms of issued, not-yet-settled
`searchExternalRecords` calls. -/
structure LookupState where
  searchTermRaw : String := ""
  working : JSVal := JSVal.null
  display : String := ""
  dropdownOpen : Bool := false
  options : List Opt := []
  pendingTimer : Option String := none
  inFlight : List String := []
deriving DecidableEq, Repr

/-- The events one lookup field can observe: a keystroke in its input, the
firing of its debounce timer, and the settling (fulfilment or rejection) of
one of its issued queries. -/
inductive LookupEvent where
  | keystroke (rawValue : String)
  | timerFire
  | response (term : String) (opts : List Opt)
  | failure (term : String)
deriving DecidableEq, Repr

/-- The `(f.fieldName || f.FieldName) === fieldName` predicate used by the
timer callback to locate the field's descriptor. -/
def fieldNameMatches (f : FieldDef) (fieldName : String) : Bool :=
  (match f.fieldName with
   | some s => if s ≠ "" then some s else f.FieldName
   | none => f.FieldName) = some fieldName

/-- One step of the per-field search controller.

* `keystroke raw`: the synchronous part of `handleExternalLookupInput` (store
  the raw term, clear the selection, open the dropdown) plus `clearTimeout` of
  the previous debounce timer and `setTimeout` of a new one capturing the
  trimmed term.  In-flight network calls are not aborted.
* `timerFire`: the debounce callback — look up the field's descriptor,
  resolve the lookup object; with no resolvable object store an empty option
  list, otherwise issue one `searchExternalRecords` query for the captured
  term.
* `response term opts`: the `.then` callback of an issued query — it writes
  `opts` into the options map unconditionally (there is no token or term
  comparison in the code).
* `failure term`: the `.catch` callback — no state change. -/
def lookupStep (editFields : List FieldDef) (fieldName : String)
    (st : LookupState) (ev : LookupEvent) : LookupState :=
  match ev with
  | LookupEvent.keystroke rawValue =>
    { st with
      searchTermRaw := rawValue
      working := JSVal.str ""
      display := ""
      dropdownOpen := true
      pendingTimer := some (jsTrim rawValue) }
  | LookupEvent.timerFire =>
    match st.pendingTimer with
    | none => st
    | some term =>
      let fieldDef := editFields.find? (fun f => fieldNameMatches f fieldName)
      let objectApiName := getLookupObjectForField fieldDef
      if objectApiName = "" then { st with pendingTimer := none, options := [] }
      else { st with pendingTimer := none, inFlight := st.inFlight ++ [term] }
  | LookupEvent.response term opts =>
    if term ∈ st.inFlight then
      { st with options := opts, inFlight := st.inFlight.erase term }
    else st
  | LookupEvent.failure term =>
    if term ∈ st.inFlight then { st with inFlight := st.inFlight.erase term }
    else st

/-- Run a sequence of per-field lookup events. -/
def runLookup (editFields : List FieldDef) (fieldName : String)
    (st : LookupState) (evs : List LookupEvent) : LookupState :=
  evs.foldl (lookupStep editFields fieldName) st

/-! ### Table viewer: cells, rows, sort, paging, load/delete -/

/-- A table cell value: `null` covers `null`/`undefined` (including a missing
column), and strings and numbers cover the typed column values the comparator
distinguishes with `typeof`. -/
inductive Cell where
  | null : Cell
  | str : String → Cell
  | num : Int → Cell
deriving DecidableEq, Repr

/-- A table row: a JS record object keyed by column field name. -/
abbrev Row := List (String × Cell)

/-- Column read `row[fieldName]` with `undefined` (`Cell.null`) for a missing
column. -/
def rowGet (r : Row) (fieldName : String) : Cell :=
  match r.find? (fun p => p.1 = fieldName) with
  | some p => p.2
  | none => Cell.null

/-- The comparator's emptiness test `v == null || v === ''`. -/
def cellNullish : Cell → Bool
  | Cell.null => true
  | Cell.str s => s = ""
  | Cell.num _ => false

/-- The comparator's `typeof v === 'string'` lowercasing step. -/
def lowerIfStr : Cell → Cell
  | Cell.str s => Cell.str (jsToLower s)
  | c => c

/-- JS `Number(string)` as used by `<` on mixed operands, modelled for plain
optionally-signed decimal integer numerals; every other string behaves as
`NaN`, making both comparisons false. -/
def jsStrToNum (s : String) : Option Int :=
  match s.data with
  | '-' :: ds => if ds ≠ [] && ds.all Char.isDigit then some (-(String.mk ds).toNat!) else none
  | ds => if ds ≠ [] && ds.all Char.isDigit then some ((String.mk ds).toNat!) else none

/-- JS `<` on the non-nullish cell values reaching the comparator's final
comparisons: strings compare lexicographically, numbers numerically, and a
number against a string numerically after `Number(...)` coercion (false when
the string is not numeric, modelling a `NaN` comparison). -/
def jsLtCell : Cell → Cell → Bool
  | Cell.str a, Cell.str b => decide (a.data < b.data)
  | Cell.num a, Cell.num b => decide (a < b)
  | Cell.num a, Cell.str b =>
    match jsStrToNum b with
    | some n => decide (a < n)
    | none => false
  | Cell.str a, Cell.num b =>
    match jsStrToNum a with
    | some n => decide (n < b)
    | none => false
  | _, _ => false

/-- The comparator passed to `sort` by `handleSort`: null/empty values are
ordered after non-null values when ascending and before them when descending;
string values are lowercased before comparing; otherwise the JS `<` ordering
decides, with equal-ranked values tied (`0`). -/
def sortCompare (isAsc : Bool) (aVal bVal : Cell) : Int :=
  let aNull := cellNullish aVal
  let bNull := cellNullish bVal
  if aNull && bNull then 0
  else if aNull then (if isAsc then 1 else -1)
  else if bNull then (if isAsc then -1 else 1)
  else
    let aVal := lowerIfStr aVal
    let bVal := lowerIfStr bVal
    if jsLtCell aVal bVal then (if isAsc then -1 else 1)
    else if jsLtCell bVal aVal then (if isAsc then 1 else -1)
    else 0

/-- The comparator as a boolean order: `comparator(a, b) ≤ 0`. -/
def rowLe (fieldName : String) (isAsc : Bool) (a b : Row) : Bool :=
  decide (sortCompare isAsc (rowGet a fieldName) (rowGet b fieldName) ≤ 0)

/-- `[...this.tableData].sort(comparator)`: `Array.prototype.sort` is a
stable sort ordered by the comparator (ECMA-262), modelled by `mergeSort`
with `le a b ↔ comparator(a, b) ≤ 0`. -/
def sortRows (rows : List Row) (fieldName : String) (isAsc : Bool) : List Row :=
  rows.mergeSort (rowLe fieldName isAsc)

/-- A built table column (only the parts relevant to state transitions). -/
structure TableCol where
  label : String := ""
  colFieldName : String := ""
  ctype : String := "text"
  sortable : Bool := false
deriving DecidableEq, Repr

/-- State of the records viewer (`CrossOrgRecordsViewer`). -/
structure ViewerState where
  objectApiName : String := "Account"
  tableData : List Row := []
  tableColumns : List TableCol := []
  errorMessage : String := ""
  isLoading : Bool := false
  hasSearched : Bool := false
  currentPage : Nat := 1
  pageSize : Nat := 25
  sortedBy : String := ""
  sortedDirection : String := "asc"
  searchTerm : String := ""
deriving Repr

/-- `get totalRecords()`: `this.tableData?.length || 0`. -/
def totalRecords (st : ViewerState) : Nat := st.tableData.length

/-- `get totalPages()`: `1` when there are no records or no positive page
size, else `Math.ceil(totalRecords / pageSize)`. -/
def totalPages (st : ViewerState) : Nat :=
  if totalRecords st = 0 ∨ st.pageSize = 0 then 1
  else (totalRecords st + st.pageSize - 1) / st.pageSize

/-- `parseInt(event.detail.value, 10) || 25`: `none` models a `NaN` parse,
and a parsed `0` is falsy, so both default to `25`. -/
def parsePageSize (rawValue : Option Nat) : Nat :=
  match rawValue with
  | some n => if n = 0 then 25 else n
  | none => 25

/-- `handlePageSizeChange(event)`: parse the new size, ignore a no-op change,
otherwise adopt the size and clamp `currentPage` to
`min(currentPage, max(1, ceil(total/size)))`. -/
def handlePageSizeChange (st : ViewerState) (rawValue : Option Nat) : ViewerState :=
  let newSize := parsePageSize rawValue
  if newSize = st.pageSize then st
  else
    let st' := { st with pageSize := newSize }
    let maxPage := max 1 ((totalRecords st' + newSize - 1) / newSize)
    { st' with currentPage := min st'.currentPage maxPage }

/-- `handleSort(event)`: ignore the event without a field name or with no
rows, otherwise replace `tableData` with the stably sorted copy and record
the sort key and direction. -/
def handleSort (st : ViewerState) (fieldName sortDirection : String) : ViewerState :=
  if fieldName = "" ∨ st.tableData.isEmpty = true then st
  else
    { st with
      tableData := sortRows st.tableData fieldName (sortDirection = "asc")
      sortedBy := fieldName
      sortedDirection := sortDirection }

/-- The synchronous head of `loadRecords()`: start the spinner, clear the
error, and mark that a search ran. -/
def loadRecordsStart (st : ViewerState) : ViewerState :=
  { st with isLoading := true, errorMessage := "", hasSearched := true }

/-- The `loadRecords` `.then` branch for `{success: false}`: surface
`response.errorMessage || 'An error occurred.'` and reset the table to empty
rows, empty columns and default sort. -/
def loadRecordsRespFailure (st : ViewerState) (errorMessage : Option String) : ViewerState :=
  { st with
    isLoading := false
    errorMessage := jsOrStr errorMessage "An error occurred."
    tableData := []
    tableColumns := []
    sortedBy := ""
    sortedDirection := "asc" }

/-- The `loadRecords` `.catch` branch: surface the best-available message and
reset the table to empty rows, empty columns and default sort. -/
def loadRecordsRejected (st : ViewerState) (message : Option String) : ViewerState :=
  { st with
    isLoading := false
    errorMessage := jsOrStr message "Failed to load records."
    tableData := []
    tableColumns := []
    sortedBy := ""
    sortedDirection := "asc" }

/-- The `handleDelete` `.then` branch for `{success: false}`: stop the
spinner and surface `response.errorMessage || 'Failed to delete.'`; rows,
columns and paging are untouched. -/
def deleteRespFailure (st : ViewerState) (errorMessage : Option String) : ViewerState :=
  { st with isLoading := false, errorMessage := jsOrStr errorMessage "Failed to delete." }

/-- The `handleDelete` `.catch` branch: stop the spinner and surface the
best-available message; rows, columns and paging are untouched. -/
def deleteRejected (st : ViewerState) (message : Option String) : ViewerState :=
  { st with isLoading := false, errorMessage := jsOrStr message "Failed to delete." }

/-! ### Spec-side predicates and proof infrastructure -/

/-- Spec-side reading of the email rule: the trimmed value decomposes as
`local@domain.tld` with a non-empty local part over the local character
class, one `@`, a non-empty domain over the domain character class (so the
domain as a whole contains at least one `.`), and a TLD of at least 2
alphabetic characters. -/
def emailSpecPattern (s : String) : Prop :=
  ∃ lo pre tld : List Char,
    s.data = lo ++ '@' :: (pre ++ '.' :: tld) ∧
    lo ≠ [] ∧ lo.all localChar = true ∧ pre ≠ [] ∧ pre.all domChar = true ∧
    2 ≤ tld.length ∧ tld.all Char.isAlpha = true

/-- Whether a cell is a string or null-like value, i.e. a value of a
text-typed column.  The comparator on such values is a total preorder; on a
column mixing numbers with non-numeric strings, JS `<` is not transitive, so
no ordering guarantee is stated there. -/
def cellIsStrOrNull : Cell → Bool
  | Cell.num _ => false
  | _ => true

/-- The sort key of a text-column cell: `none` for a null/empty cell,
otherwise the lowercased string. -/
def cellKey : Cell → Option String
  | Cell.null => none
  | Cell.str s => if s = "" then none else some (jsToLower s)
  | Cell.num _ => none

/-- The sort key of a row for a text column. -/
def rowKey (fieldName : String) (r : Row) : Option String :=
  cellKey (rowGet r fieldName)

/-- The comparator restricted to sort keys: equal keys tie, `none` (null or
empty) ranks after every string key when ascending and before it when
descending, and string keys compare lexicographically. -/
def keyCompare (isAsc : Bool) : Option String → Option String → Int
  | none, none => 0
  | none, some _ => if isAsc then 1 else -1
  | some _, none => if isAsc then -1 else 1
  | some a, some b =>
    if a < b then (if isAsc then -1 else 1)
    else if b < a then (if isAsc then 1 else -1)
    else 0

/-- Rows of a text-typed column, on which the comparator is consistent. -/
def GoodRow (fieldName : String) : Type :=
  { r : Row // cellIsStrOrNull (rowGet r fieldName) = true }

/-- The comparator order on `GoodRow`. -/
def goodLe (fieldName : String) (isAsc : Bool) (a b : GoodRow fieldName) : Bool :=
  rowLe fieldName isAsc a.1 b.1

/-! ### Helper lemmas -/

theorem splitFirst_append {c : Char} {a : List Char} (b : List Char) (h : c ∉ a) :
    splitFirst c (a ++ c :: b) = some (a, b) := by
  induction a with
  | nil => simp [splitFirst]
  | cons x xs ih =>
    have hx : x ≠ c := fun hxc => h (hxc ▸ List.mem_cons_self x xs)
    have hxs : c ∉ xs := fun hm => h (List.mem_cons_of_mem x hm)
    simp [splitFirst, hx, ih hxs]

theorem splitFirst_sound {c : Char} : ∀ {l a b : List Char},
    splitFirst c l = some (a, b) → l = a ++ c :: b ∧ c ∉ a := by
  intro l
  induction l with
  | nil => intro a b h; simp [splitFirst] at h
  | cons x xs ih =>
    intro a b h
    by_cases hx : x = c
    · subst hx
      simp only [splitFirst, if_pos rfl, Option.some.injEq, Prod.mk.injEq] at h
      obtain ⟨rfl, rfl⟩ := h
      exact ⟨rfl, List.not_mem_nil _⟩
    · simp only [splitFirst, if_neg hx] at h
      match hsp : splitFirst c xs with
      | none => rw [hsp] at h; simp at h
      | some (a', b') =>
        rw [hsp] at h
        simp only [Option.some.injEq, Prod.mk.injEq] at h
        obtain ⟨rfl, rfl⟩ := h
        obtain ⟨hxs, hmem⟩ := ih hsp
        refine ⟨by simp [hxs], ?_⟩
        intro hm
        rcases List.mem_cons.mp hm with h1 | h2
        · exact hx h1.symm
        · exact hmem h2

theorem splitFirst_eq_none_iff {c : Char} : ∀ {l : List Char},
    splitFirst c l = none ↔ c ∉ l := by
  intro l
  induction l with
  | nil => simp [splitFirst]
  | cons x xs ih =>
    by_cases hx : x = c
    · subst hx; simp [splitFirst]
    · simp only [splitFirst, if_neg hx]
      match hsp : splitFirst c xs with
      | none =>
        simp only [List.mem_cons]
        constructor
        · intro _ hm
          rcases hm with h1 | h2
          · exact hx h1.symm
          · exact (ih.mp hsp) h2
        · intro _; trivial
      | some (a', b') =>
        obtain ⟨hl, -⟩ := splitFirst_sound hsp
        have hcmem : c ∈ xs := by
          rw [hl]; exact List.mem_append.mpr (Or.inr (List.mem_cons_self c b'))
        simp [List.mem_cons, hcmem]

theorem splitLast_append {c : Char} (p : List Char) {t : List Char} (h : c ∉ t) :
    splitLast c (p ++ c :: t) = some (p, t) := by
  have hrev : (p ++ c :: t).reverse = t.reverse ++ c :: p.reverse := by
    simp [List.reverse_append]
  have hnot : c ∉ t.reverse := fun hm => h (List.mem_reverse.mp hm)
  simp [splitLast, hrev, splitFirst_append p.reverse hnot]

theorem splitLast_sound {c : Char} {l p t : List Char}
    (h : splitLast c l = some (p, t)) : l = p ++ c :: t ∧ c ∉ t := by
  unfold splitLast at h
  match hsp : splitFirst c l.reverse with
  | none => rw [hsp] at h; simp at h
  | some (a, b) =>
    rw [hsp] at h
    simp only [Option.some.injEq, Prod.mk.injEq] at h
    obtain ⟨hp, ht⟩ := h
    obtain ⟨hl, hmem⟩ := splitFirst_sound hsp
    subst hp; subst ht
    constructor
    · have := congrArg List.reverse hl
      simpa [List.reverse_append] using this
    · intro hm
      exact hmem (List.mem_reverse.mp hm)

theorem jsGet_jsSet (r : Rec) (k : String) (v : JSVal) : jsGet (jsSet r k v) k = v := by
  induction r with
  | nil => simp [jsSet, jsGet, List.find?]
  | cons p rest ih =>
    obtain ⟨k', v'⟩ := p
    by_cases hk : k' = k
    · subst hk; simp [jsSet, jsGet, List.find?]
    · simp only [jsSet, if_neg hk]
      simpa [jsGet, List.find?, hk] using ih

theorem jsGetS_jsSetS (r : List (String × String)) (k v : String) :
    jsGetS (jsSetS r k v) k = v := by
  induction r with
  | nil => simp [jsSetS, jsGetS, List.find?]
  | cons p rest ih =>
    obtain ⟨k', v'⟩ := p
    by_cases hk : k' = k
    · subst hk; simp [jsSetS, jsGetS, List.find?]
    · simp only [jsSetS, if_neg hk]
      simpa [jsGetS, List.find?, hk] using ih

theorem emailMatches_iff (s : String) : emailMatches s = true ↔ emailSpecPattern s := by
  constructor
  · intro h
    match hsp : splitFirst '@' s.data with
    | none => simp [emailMatches, hsp] at h
    | some (lo, rest) =>
      match hsl : splitLast '.' rest with
      | none => simp [emailMatches, hsp, hsl] at h
      | some (pre, tld) =>
        simp only [emailMatches, hsp, hsl, Bool.and_eq_true, Bool.not_eq_true',
          decide_eq_true_eq] at h
        obtain ⟨⟨⟨⟨⟨h1, h2⟩, h3⟩, h4⟩, h5⟩, h6⟩ := h
        obtain ⟨hd1, -⟩ := splitFirst_sound hsp
        obtain ⟨hd2, -⟩ := splitLast_sound hsl
        refine ⟨lo, pre, tld, ?_, ?_, h2, ?_, h4, h5, h6⟩
        · rw [hd1, hd2]
        · intro hnil; rw [hnil] at h1; simp [List.isEmpty] at h1
        · intro hnil; rw [hnil] at h3; simp [List.isEmpty] at h3
  · rintro ⟨lo, pre, tld, hdata, hlo, hloc, hpre, hdc, htl, hta⟩
    have hnoat : '@' ∉ lo := by
      intro hm
      have hval := List.all_eq_true.mp hloc _ hm
      have hch : localChar '@' = false := by decide
      rw [hch] at hval; exact absurd hval (by simp)
    have hnodot : '.' ∉ tld := by
      intro hm
      have hval := List.all_eq_true.mp hta _ hm
      have hch : Char.isAlpha '.' = false := by decide
      rw [hch] at hval; exact absurd hval (by simp)
    have e1 := splitFirst_append (pre ++ '.' :: tld) hnoat
    have e2 := splitLast_append pre hnodot
    have hlo' : lo.isEmpty = false := by
      cases lo with
      | nil => exact absurd rfl hlo
      | cons a l => rfl
    have hpre' : pre.isEmpty = false := by
      cases pre with
      | nil => exact absurd rfl hpre
      | cons a l => rfl
    simp [emailMatches, hdata, e1, e2, hlo', hpre', hloc, hdc, htl, hta]

/-- C3: `getLookupObjectForField` returns the explicitly configured lookup
target trimmed when a non-blank one is supplied; otherwise it applies the
specified derivation rule to the field name (segment after the last `.`,
strip a trailing case-insensitive `id` when longer than 2 characters, with a
stripped base of `owner` yielding `User`, else no target); in particular
`OwnerId ↦ User`, `Account.ParentId ↦ Parent`, and `Name ↦ ''`. -/
theorem claim_C3 :
    (∀ f : FieldDef, lookupConfigured f ≠ "" →
      getLookupObjectForField (some f) = lookupConfigured f) ∧
    (∀ f : FieldDef, lookupConfigured f = "" →
      getLookupObjectForField (some f) = lookupTargetSpecDerived (fieldNameOf f)) ∧
    getLookupObjectForField (some { fieldName := some "OwnerId" }) = "User" ∧
    getLookupObjectForField (some { fieldName := some "Account.ParentId" }) = "Parent" ∧
    getLookupObjectForField (some { fieldName := some "Name" }) = "" := by
  refine ⟨?_, ?_, by decide, by decide, by decide⟩
  · intro f h
    simp [getLookupObjectForField, h]
  · intro f h
    simp [getLookupObjectForField, lookupTargetSpecDerived, h]

theorem claim_C3_witness :
    lookupConfigured { lookupObjectApiName := some " Contact " } ≠ "" ∧
    getLookupObjectForField (some { lookupObjectApiName := some " Contact " }) = "Contact" ∧
    lookupConfigured { fieldName := some "OwnerId" } = "" ∧
    getLookupObjectForField (some { fieldName := some "OwnerId" }) =
      lookupTargetSpecDerived (fieldNameOf { fieldName := some "OwnerId" }) := by
  refine ⟨by decide, ?_, by decide, ?_⟩
  · have h := claim_C3.1 { lookupObjectApiName := some " Contact " } (by decide)
    simpa using h
  · exact claim_C3.2.1 { fieldName := some "OwnerId" } (by decide)

/-- C6: `isValidEmail` accepts empty/null input, and accepts non-empty input
exactly when the trimmed value decomposes as `local@domain.tld` with one `@`,
a domain containing a `.`, and an alphabetic TLD of length at least 2;
`isValidPhone` accepts empty/null input, and accepts non-empty input exactly
when at least 10 digits remain after stripping non-digits; with the concrete
examples `a@b.co`, `not-an-email`, `''`, `415-555-0100` and `12345`. -/
theorem claim_C6 :
    isValidEmail (JSVal.str "a@b.co") = true ∧
    isValidEmail (JSVal.str "not-an-email") = false ∧
    isValidEmail (JSVal.str "") = true ∧
    isValidEmail JSVal.null = true ∧
    isValidPhone (JSVal.str "415-555-0100") = true ∧
    isValidPhone (JSVal.str "12345") = false ∧
    isValidPhone (JSVal.str "") = true ∧
    isValidPhone JSVal.null = true ∧
    (∀ s : String, jsTrim s ≠ "" →
      (isValidEmail (JSVal.str s) = true ↔ emailSpecPattern (jsTrim s))) ∧
    (∀ s : String, jsTrim s ≠ "" →
      (isValidPhone (JSVal.str s) = true ↔ 10 ≤ (s.data.filter Char.isDigit).length)) := by
  refine ⟨by decide, by decide, by decide, by decide, by decide, by decide, by decide, by decide,
    ?_, ?_⟩
  · intro s hs
    rw [show isValidEmail (JSVal.str s) = emailMatches (jsTrim s) by simp [isValidEmail, jsToString, hs]]
    exact emailMatches_iff (jsTrim s)
  · intro s hs
    simp [isValidPhone, jsToString, hs]

theorem claim_C6_witness :
    jsTrim "a@b.co" ≠ "" ∧
    (isValidEmail (JSVal.str "a@b.co") = true ↔ emailSpecPattern (jsTrim "a@b.co")) ∧
    jsTrim "415-555-0100" ≠ "" ∧
    (isValidPhone (JSVal.str "415-555-0100") = true ↔
      10 ≤ (("415-555-0100" : String).data.filter Char.isDigit).length) := by
  refine ⟨by decide, ?_, by decide, ?_⟩
  · exact claim_C6.2.2.2.2.2.2.2.2.1 "a@b.co" (by decide)
  · exact claim_C6.2.2.2.2.2.2.2.2.2 "415-555-0100" (by decide)

theorem payloadStep_self (r : Rec) (acc : Rec) (f : FieldDef) :
    payloadStep r r true acc f = acc := by
  simp [payloadStep]

theorem buildPayload_self (fields : List FieldDef) (r : Rec) :
    buildPayload fields r r true = [] := by
  unfold buildPayload
  generalize hacc : ([] : Rec) = acc
  clear hacc
  induction fields generalizing acc with
  | nil => rfl
  | cons f fs ih => rw [List.foldl_cons, payloadStep_self]; exact ih acc

theorem payloadStep_create_empty (r init : Rec) (acc : Rec) (f : FieldDef)
    (h : jsGet r (fieldNameOf f) = JSVal.null ∨ jsGet r (fieldNameOf f) = JSVal.str "") :
    payloadStep r init false acc f = acc := by
  rcases h with h | h <;> simp [payloadStep, h]

theorem buildPayload_create_empty (fields : List FieldDef) (r init : Rec)
    (h : ∀ f ∈ fields, jsGet r (fieldNameOf f) = JSVal.null ∨
      jsGet r (fieldNameOf f) = JSVal.str "") :
    buildPayload fields r init false = [] := by
  unfold buildPayload
  generalize hacc : ([] : Rec) = acc
  clear hacc
  induction fields generalizing acc with
  | nil => rfl
  | cons f fs ih =>
    rw [List.foldl_cons, payloadStep_create_empty r init acc f (h f (List.mem_cons_self f fs))]
    exact ih (fun g hg => h g (List.mem_cons_of_mem f hg)) acc

/-- C1: an edit session seeded from a record snapshot with an unmodified
working copy builds an empty payload, and `handleSave` rejects the submit
locally with `No fields were changed.` — no `updateRecord` call is made. -/
theorem claim_C1 : ∀ (record : Rec) (objectApiName : String) (editFields : List FieldDef)
    (lookupLabels : List (String × String)) (dom : DomEnv),
    isEditMode (connectedCallbackState record objectApiName editFields lookupLabels) = true →
    jsTrim objectApiName ≠ "" →
    jsTrim (jsToString (jsGet record "Id")) ≠ "" →
    dom.genericValid = true →
    externalRequiredFails editFields record dom = false →
    firstFormatError editFields record = none →
    buildPayload editFields record record true = [] ∧
    handleSave (connectedCallbackState record objectApiName editFields lookupLabels) dom =
      SaveOutcome.localError "No fields were changed." := by
  intro record oApi fields labels dom h1 h2 h3 h4 h5 h6
  have hpay : buildPayload fields record record true = [] := buildPayload_self fields record
  refine ⟨hpay, ?_⟩
  have hfalsy : jsFalsy (jsGet record "Id") = false := by
    have h1' := h1
    simp only [isEditMode, connectedCallbackState, Bool.not_eq_true'] at h1'
    exact h1'
  simp [handleSave, connectedCallbackState, isEditMode, h2, h3, hfalsy, h4, h5, h6, hpay]

theorem claim_C1_witness :
    isEditMode (connectedCallbackState [("Id", JSVal.str "001"), ("Name", JSVal.str "Acme")]
      "Account" [{ fieldName := some "Name", ftype := some "text" }] []) = true ∧
    handleSave (connectedCallbackState [("Id", JSVal.str "001"), ("Name", JSVal.str "Acme")]
        "Account" [{ fieldName := some "Name", ftype := some "text" }] []) {} =
      SaveOutcome.localError "No fields were changed." := by
  refine ⟨by decide, ?_⟩
  exact (claim_C1 [("Id", JSVal.str "001"), ("Name", JSVal.str "Acme")] "Account"
    [{ fieldName := some "Name", ftype := some "text" }] [] {} (by decide) (by decide)
    (by decide) rfl (by decide) (by decide)).2

/-- C10: in create mode the empty-payload guard does not apply — with every
working value null or empty and validation passing, `handleSave` still issues
a `createRecord` call with an empty payload instead of rejecting locally. -/
theorem claim_C10 : ∀ (record : Rec) (objectApiName : String) (editFields : List FieldDef)
    (lookupLabels : List (String × String)) (dom : DomEnv),
    isEditMode (connectedCallbackState record objectApiName editFields lookupLabels) = false →
    jsTrim objectApiName ≠ "" →
    dom.genericValid = true →
    externalRequiredFails editFields record dom = false →
    firstFormatError editFields record = none →
    (∀ f ∈ editFields, jsGet record (fieldNameOf f) = JSVal.null ∨
      jsGet record (fieldNameOf f) = JSVal.str "") →
    handleSave (connectedCallbackState record objectApiName editFields lookupLabels) dom =
      SaveOutcome.callCreate [] := by
  intro record oApi fields labels dom h1 h2 h3 h4 h5 h6
  have hpay : buildPayload fields record record false = [] :=
    buildPayload_create_empty fields record record h6
  have hfalsy : jsFalsy (jsGet record "Id") = true := by
    have h1' := h1
    simp only [isEditMode, connectedCallbackState, Bool.not_eq_false'] at h1'
    exact h1'
  simp [handleSave, connectedCallbackState, isEditMode, hfalsy, h2, h3, h4, h5, hpay]

theorem claim_C10_witness :
    isEditMode (connectedCallbackState [] "Account" [{ fieldName := some "Name" }] []) = false ∧
    handleSave (connectedCallbackState [] "Account" [{ fieldName := some "Name" }] []) {} =
      SaveOutcome.callCreate [] := by
  refine ⟨by decide, ?_⟩
  exact claim_C10 [] "Account" [{ fieldName := some "Name" }] [] {} (by decide) (by decide)
    rfl (by decide) (by decide) (by decide)

/-- C9: requiredness of an external lookup is only satisfiable by an actual
selection — every keystroke clears the field's working value and selected
label, only selecting an option writes the option's value, and `handleSave`
rejects locally whenever a required lookup field's working value is falsy. -/
theorem claim_C9 :
    (∀ (st : ModalState) (fieldName rawValue : String),
      jsGet (handleExternalLookupInput st fieldName rawValue).recordData fieldName =
        JSVal.str "" ∧
      jsGetS (handleExternalLookupInput st fieldName rawValue).externalLookupDisplayMap
        fieldName = "") ∧
    (∀ (st : ModalState) (dom : DomEnv) (f : FieldDef),
      f ∈ st.editFields →
      (f.isExternalLookup || f.IsExternalLookup) = true →
      f.required = true →
      jsFalsy (jsGet st.recordData (fieldNameOf f)) = true →
      dom.inputFound (fieldNameOf f) = true →
      (handleSave st dom).isLocalError = true) ∧
    (∀ (st : ModalState) (fieldName value : String) (label : Option String),
      jsGet (handleExternalLookupSelect st fieldName value label).recordData fieldName =
        JSVal.str value) := by
  refine ⟨?_, ?_, ?_⟩
  · intro st fieldName rawValue
    exact ⟨jsGet_jsSet st.recordData fieldName (JSVal.str ""),
      jsGetS_jsSetS st.externalLookupDisplayMap fieldName ""⟩
  · intro st dom f hmem hext hreq hfalsy hfound
    have hfail : externalRequiredFails st.editFields st.recordData dom = true :=
      List.any_eq_true.mpr ⟨f, hmem, by simp [hext, hreq, hfalsy, hfound]⟩
    unfold handleSave
    split
    · rfl
    · split
      · rfl
      · simp only [hfail, Bool.not_true, Bool.and_false, Bool.false_and, Bool.not_false,
          if_true]
        rfl
  · intro st fieldName value label
    exact jsGet_jsSet st.recordData fieldName (JSVal.str value)

theorem claim_C9_witness :
    ({ fieldName := some "AccountId", isExternalLookup := true, required := true : FieldDef } ∈
      ({ editFields := [{ fieldName := some "AccountId", isExternalLookup := true, required := true }] : ModalState }).editFields) ∧
    (handleSave { editFields := [{ fieldName := some "AccountId", isExternalLookup := true, required := true }] } {}).isLocalError = true := by
  refine ⟨List.mem_singleton.mpr rfl, ?_⟩
  exact claim_C9.2.1
    { editFields := [{ fieldName := some "AccountId", isExternalLookup := true, required := true }] }
    {} { fieldName := some "AccountId", isExternalLookup := true, required := true }
    (List.mem_singleton.mpr rfl) (by decide) rfl (by decide) rfl

set_option maxRecDepth 8000 in
/-- C7: when the page size actually changes, the current page is clamped to
`[1, totalPages]` and never left past the end; with 205 rows and page size 50
the total page count is 5, and switching to page size 100 while on page 5
clamps the current page to 3. -/
theorem claim_C7 :
    (∀ (st : ViewerState) (rawValue : Option Nat),
      1 ≤ st.currentPage → 0 < totalRecords st → parsePageSize rawValue ≠ st.pageSize →
      1 ≤ (handlePageSizeChange st rawValue).currentPage ∧
        (handlePageSizeChange st rawValue).currentPage ≤
          totalPages (handlePageSizeChange st rawValue)) ∧
    totalPages { tableData := List.replicate 205 ([] : Row), pageSize := 50 } = 5 ∧
    (handlePageSizeChange { tableData := List.replicate 205 ([] : Row), pageSize := 50, currentPage := 5 } (some 100)).currentPage = 3 := by
  refine ⟨?_, by decide, by decide⟩
  intro st rawValue hpage hrows hne
  have hpos : 0 < parsePageSize rawValue := by
    rcases rawValue with - | n <;> simp [parsePageSize]
    split <;> omega
  have heq : handlePageSizeChange st rawValue = { st with pageSize := parsePageSize rawValue, currentPage := min st.currentPage (max 1 ((totalRecords st + parsePageSize rawValue - 1) / parsePageSize rawValue)) } := by
    simp only [handlePageSizeChange]
    rw [if_neg hne]
    rfl
  have hq : 1 ≤ (totalRecords st + parsePageSize rawValue - 1) / parsePageSize rawValue := by
    rw [Nat.one_le_div_iff hpos]
    omega
  have hcp : (handlePageSizeChange st rawValue).currentPage =
      min st.currentPage (max 1 ((totalRecords st + parsePageSize rawValue - 1) / parsePageSize rawValue)) := by
    rw [heq]
  have htp : totalPages (handlePageSizeChange st rawValue) =
      (totalRecords st + parsePageSize rawValue - 1) / parsePageSize rawValue := by
    rw [heq]
    simp only [totalPages]
    rw [if_neg]
    · rfl
    · rintro (h | h)
      · have h' : totalRecords st = 0 := h
        omega
      · omega
  rw [hcp, htp]
  constructor
  · exact le_min hpage (le_max_left 1 _)
  · calc min st.currentPage (max 1 ((totalRecords st + parsePageSize rawValue - 1) / parsePageSize rawValue))
        ≤ max 1 ((totalRecords st + parsePageSize rawValue - 1) / parsePageSize rawValue) :=
          min_le_right _ _
      _ = (totalRecords st + parsePageSize rawValue - 1) / parsePageSize rawValue :=
          max_eq_right hq

set_option maxRecDepth 8000 in
theorem claim_C7_witness :
    1 ≤ ({ tableData := List.replicate 205 ([] : Row), pageSize := 50, currentPage := 5 : ViewerState }).currentPage ∧
    0 < totalRecords { tableData := List.replicate 205 ([] : Row), pageSize := 50, currentPage := 5 } ∧
    1 ≤ (handlePageSizeChange { tableData := List.replicate 205 ([] : Row), pageSize := 50, currentPage := 5 } (some 100)).currentPage ∧
    (handlePageSizeChange { tableData := List.replicate 205 ([] : Row), pageSize := 50, currentPage := 5 } (some 100)).currentPage ≤
      totalPages (handlePageSizeChange { tableData := List.replicate 205 ([] : Row), pageSize := 50, currentPage := 5 } (some 100)) := by
  refine ⟨by decide, by decide, ?_⟩
  exact claim_C7.1
    { tableData := List.replicate 205 ([] : Row), pageSize := 50, currentPage := 5 }
    (some 100) (by decide) (by decide) (by decide)

/-- C8 (amended): a failed delete and a failed save abandon the operation
with a top-level error message while leaving the prior rows, columns, paging
and edit-session data intact for a retry; a failed load, however, surfaces
the error but clears the loaded rows and columns and resets the sort state,
rather than leaving them unchanged. -/
theorem claim_C8 :
    (∀ (st : ViewerState) (errorMessage : Option String),
      (deleteRespFailure st errorMessage).tableData = st.tableData ∧
      (deleteRespFailure st errorMessage).tableColumns = st.tableColumns ∧
      (deleteRespFailure st errorMessage).currentPage = st.currentPage ∧
      (deleteRespFailure st errorMessage).isLoading = false ∧
      (deleteRespFailure st errorMessage).errorMessage =
        jsOrStr errorMessage "Failed to delete.") ∧
    (∀ (st : ViewerState) (message : Option String),
      (deleteRejected st message).tableData = st.tableData ∧
      (deleteRejected st message).tableColumns = st.tableColumns ∧
      (deleteRejected st message).currentPage = st.currentPage) ∧
    (∀ (st : ModalState) (errorMessage : Option String) (failMessage : String),
      (handleSaveResponseFailure st errorMessage failMessage).recordData = st.recordData ∧
      (handleSaveResponseFailure st errorMessage failMessage).initialRecordValues =
        st.initialRecordValues ∧
      (handleSaveResponseFailure st errorMessage failMessage).editFields = st.editFields ∧
      (handleSaveResponseFailure st errorMessage failMessage).saveLoading = false ∧
      (handleSaveResponseFailure st errorMessage failMessage).errorMessage =
        jsOrStr errorMessage failMessage) ∧
    (∀ (st : ModalState) (message : Option String) (fallback : String),
      (saveRejected st message fallback).recordData = st.recordData ∧
      (saveRejected st message fallback).initialRecordValues = st.initialRecordValues) ∧
    (∀ (st : ViewerState) (errorMessage : Option String),
      (loadRecordsRespFailure st errorMessage).tableData = [] ∧
      (loadRecordsRespFailure st errorMessage).tableColumns = [] ∧
      (loadRecordsRejected st errorMessage).tableData = []) := by
  exact ⟨fun st e => ⟨rfl, rfl, rfl, rfl, rfl⟩,
    fun st m => ⟨rfl, rfl, rfl⟩,
    fun st e f => ⟨rfl, rfl, rfl, rfl, rfl⟩,
    fun st m f => ⟨rfl, rfl⟩,
    fun st e => ⟨rfl, rfl, rfl⟩⟩

theorem claim_C8_counterexample :
    (loadRecordsRespFailure (loadRecordsStart { tableData := [[("Name", Cell.str "Acme")]] }) (some "boom")).tableData
      ≠ ({ tableData := [[("Name", Cell.str "Acme")]] : ViewerState }).tableData := by
  decide

/-- C2 (amended): several keystrokes within the debounce window leave a
single pending debounce timer carrying the last term, and its firing issues
exactly one query for that term; but the query completion callback has no
token or term check — any in-flight query's response, including a stale one
belonging to a superseded term, overwrites the field's current option list
when it arrives. -/
theorem claim_C2 :
    (∀ (editFields : List FieldDef) (fieldName : String) (st : LookupState)
      (raws : List String) (h : raws ≠ []),
      (runLookup editFields fieldName st (raws.map LookupEvent.keystroke)).pendingTimer =
        some (jsTrim (raws.getLast h)) ∧
      (runLookup editFields fieldName st (raws.map LookupEvent.keystroke)).inFlight =
        st.inFlight ∧
      (runLookup editFields fieldName st (raws.map LookupEvent.keystroke)).options =
        st.options) ∧
    (∀ (editFields : List FieldDef) (fieldName : String) (st : LookupState) (term : String),
      st.pendingTimer = some term →
      getLookupObjectForField (editFields.find? (fun f => fieldNameMatches f fieldName)) ≠ "" →
      (lookupStep editFields fieldName st LookupEvent.timerFire).inFlight =
        st.inFlight ++ [term] ∧
      (lookupStep editFields fieldName st LookupEvent.timerFire).pendingTimer = none) ∧
    (∀ (editFields : List FieldDef) (fieldName : String) (st : LookupState) (term : String)
      (opts : List Opt), term ∈ st.inFlight →
      (lookupStep editFields fieldName st (LookupEvent.response term opts)).options = opts) := by
  refine ⟨?_, ?_, ?_⟩
  · intro editFields fieldName st raws h
    induction raws generalizing st with
    | nil => exact absurd rfl h
    | cons r rest ih =>
      cases rest with
      | nil => exact ⟨rfl, rfl, rfl⟩
      | cons r' rest' =>
        have hne : r' :: rest' ≠ [] := by simp
        have step := ih (lookupStep editFields fieldName st (LookupEvent.keystroke r)) hne
        simpa [runLookup, List.getLast_cons hne] using step
  · intro editFields fieldName st term hterm hobj
    simp [lookupStep, hterm, hobj]
  · intro editFields fieldName st term opts hmem
    simp [lookupStep, hmem]

theorem claim_C2_witness :
    (["a", "ab", "abc"] : List String) ≠ [] ∧
    (runLookup [{ fieldName := some "AccountId", isExternalLookup := true }] "AccountId" {}
      (["a", "ab", "abc"].map LookupEvent.keystroke)).pendingTimer = some "abc" := by
  refine ⟨by decide, ?_⟩
  have h := (claim_C2.1 [{ fieldName := some "AccountId", isExternalLookup := true }]
    "AccountId" {} ["a", "ab", "abc"] (by decide)).1
  simpa using h

theorem claim_C2_counterexample :
    (runLookup [{ fieldName := some "AccountId", isExternalLookup := true }] "AccountId" {}
      [LookupEvent.keystroke "a", LookupEvent.timerFire, LookupEvent.keystroke "abc",
       LookupEvent.timerFire, LookupEvent.response "abc" [{ value := "1", label := "Abc Corp" }],
       LookupEvent.response "a" [{ value := "2", label := "Alpha Ltd" }]]).options =
      [{ value := "2", label := "Alpha Ltd" }] ∧
    (runLookup [{ fieldName := some "AccountId", isExternalLookup := true }] "AccountId" {}
      [LookupEvent.keystroke "a", LookupEvent.timerFire, LookupEvent.keystroke "abc",
       LookupEvent.timerFire, LookupEvent.response "abc" [{ value := "1", label := "Abc Corp" }]]).options =
      [{ value := "1", label := "Abc Corp" }] ∧
    ({ value := "2", label := "Alpha Ltd" : Opt }) ≠ { value := "1", label := "Abc Corp" } := by
  refine ⟨by decide, by decide, by decide⟩

theorem jsDateCanonical_of_no_T {s : String} (hT : 'T' ∉ s.data) :
    jsDateCanonical s = (dateOnlyParse s.data).map (fun _ => s) := by
  unfold jsDateCanonical
  rw [splitFirst_eq_none_iff.mpr hT]

theorem jsDateCanonical_append_time {s c : String} (hT : 'T' ∉ s.data)
    (hc : jsDateCanonical s = some c) :
    jsDateCanonical (s ++ "T00:00:00Z") = some s ∧ c = s := by
  rw [jsDateCanonical_of_no_T hT] at hc
  match hp : dateOnlyParse s.data with
  | none => rw [hp] at hc; simp at hc
  | some p =>
    rw [hp] at hc
    simp only [Option.map_some', Option.some.injEq] at hc
    refine ⟨?_, hc.symm⟩
    have hdata : (s ++ "T00:00:00Z").data = s.data ++ 'T' :: ("00:00:00Z").data := by
      rw [String.data_append]
    have ht : timeOfDayOk ("00:00:00Z").data = true := by decide
    have hmk : String.mk s.data = s := rfl
    simp [jsDateCanonical, hdata, splitFirst_append _ hT, hp, ht, hmk]

theorem normalizedValue_date_suffix {s c : String} (h1 : jsTrim s = s)
    (h2 : jsTrim (s ++ "T00:00:00Z") = s ++ "T00:00:00Z") (hT : 'T' ∉ s.data)
    (hc : jsDateCanonical s = some c) :
    normalizedValue (JSVal.str (s ++ "T00:00:00Z")) = s ∧
      normalizedValue (JSVal.str s) = s := by
  obtain ⟨happ, hcs⟩ := jsDateCanonical_append_time hT hc
  have hsne : s ≠ "" := by
    intro hnil
    rw [jsDateCanonical_of_no_T hT, hnil] at hc
    simp [dateOnlyParse] at hc
  have happne : s ++ "T00:00:00Z" ≠ "" := by
    intro h0
    have := congrArg String.data h0
    rw [String.data_append] at this
    simp at this
  constructor
  · simp [normalizedValue, jsToString, h2, happne, happ]
  · simp [normalizedValue, jsToString, h1, hsne, hc, hcs]

/-- C5: `normalizedValue` unwraps `{value: X}` wrappers, sends `null`,
`undefined` and blank strings to the same normal form `''`, renders a
date-parseable trimmed string as its canonical `YYYY-MM-DD` form and any
other string as its trimmed form; consequently a `YYYY-MM-DD` date and the
midnight-UTC timestamp of the same day normalize equal and the change-set
loop excludes the field from the edit payload. -/
theorem claim_C5 :
    normalizedValue JSVal.null = "" ∧
    (∀ v : JSVal, normalizedValue (JSVal.wrapped v) = normalizedValue v) ∧
    (∀ s : String, jsTrim s = "" → normalizedValue (JSVal.str s) = "") ∧
    (∀ (s c : String), jsTrim s ≠ "" → jsDateCanonical (jsTrim s) = some c →
      normalizedValue (JSVal.str s) = c) ∧
    (∀ s : String, jsTrim s ≠ "" → jsDateCanonical (jsTrim s) = none →
      normalizedValue (JSVal.str s) = jsTrim s) ∧
    (∀ (s c : String), jsTrim s = s → jsTrim (s ++ "T00:00:00Z") = s ++ "T00:00:00Z" →
      'T' ∉ s.data → jsDateCanonical s = some c →
      normalizedValue (JSVal.str (s ++ "T00:00:00Z")) = normalizedValue (JSVal.str s)) ∧
    (∀ (s c : String) (f : FieldDef), jsTrim s = s →
      jsTrim (s ++ "T00:00:00Z") = s ++ "T00:00:00Z" → 'T' ∉ s.data →
      jsDateCanonical s = some c →
      buildPayload [f] [(fieldNameOf f, JSVal.str (s ++ "T00:00:00Z"))]
        [(fieldNameOf f, JSVal.str s)] true = []) := by
  refine ⟨rfl, fun v => rfl, ?_, ?_, ?_, ?_, ?_⟩
  · intro s h
    simp [normalizedValue, jsToString, h]
  · intro s c hne hc
    simp [normalizedValue, jsToString, hne, hc]
  · intro s hne hc
    simp [normalizedValue, jsToString, hne, hc]
  · intro s c h1 h2 hT hc
    obtain ⟨ha, hb⟩ := normalizedValue_date_suffix h1 h2 hT hc
    rw [ha, hb]
  · intro s c f h1 h2 hT hc
    obtain ⟨ha, hb⟩ := normalizedValue_date_suffix h1 h2 hT hc
    unfold buildPayload
    simp [payloadStep, jsGet, List.find?, ha, hb]

theorem claim_C5_witness :
    jsTrim "2024-01-05" = "2024-01-05" ∧
    jsTrim ("2024-01-05" ++ "T00:00:00Z") = "2024-01-05" ++ "T00:00:00Z" ∧
    'T' ∉ ("2024-01-05" : String).data ∧
    jsDateCanonical "2024-01-05" = some "2024-01-05" ∧
    normalizedValue (JSVal.str ("2024-01-05" ++ "T00:00:00Z")) =
      normalizedValue (JSVal.str "2024-01-05") ∧
    buildPayload [{ fieldName := some "CloseDate" }]
      [(fieldNameOf { fieldName := some "CloseDate" }, JSVal.str ("2024-01-05" ++ "T00:00:00Z"))]
      [(fieldNameOf { fieldName := some "CloseDate" }, JSVal.str "2024-01-05")] true = [] := by
  refine ⟨by decide, by decide, by decide, by decide, ?_, ?_⟩
  · exact claim_C5.2.2.2.2.2.1 "2024-01-05" "2024-01-05" (by decide) (by decide) (by decide)
      (by decide)
  · exact claim_C5.2.2.2.2.2.2 "2024-01-05" "2024-01-05" { fieldName := some "CloseDate" }
      (by decide) (by decide) (by decide) (by decide)

theorem keyCompare_some_asc (a b : String) :
    keyCompare true (some a) (some b) ≤ 0 ↔ a ≤ b := by
  rcases lt_trichotomy a b with h | h | h
  · simp [keyCompare, h, le_of_lt h]
  · subst h; simp [keyCompare, lt_irrefl]
  · simp [keyCompare, lt_asymm h, h, not_le.mpr h]

theorem keyCompare_some_desc (a b : String) :
    keyCompare false (some a) (some b) ≤ 0 ↔ b ≤ a := by
  rcases lt_trichotomy a b with h | h | h
  · simp [keyCompare, h, lt_asymm h, not_le.mpr h]
  · subst h; simp [keyCompare, lt_irrefl]
  · simp [keyCompare, lt_asymm h, h, le_of_lt h]

theorem keyCompare_asc_iff (x y : Option String) :
    keyCompare true x y ≤ 0 ↔
      (y = none ∨ ∃ a b, x = some a ∧ y = some b ∧ a ≤ b) := by
  match x, y with
  | none, none => simp [keyCompare]
  | none, some b => simp [keyCompare]
  | some a, none => simp [keyCompare]
  | some a, some b => rw [keyCompare_some_asc]; simp

theorem keyCompare_desc_iff (x y : Option String) :
    keyCompare false x y ≤ 0 ↔
      (x = none ∨ ∃ a b, x = some a ∧ y = some b ∧ b ≤ a) := by
  match x, y with
  | none, none => simp [keyCompare]
  | none, some b => simp [keyCompare]
  | some a, none => simp [keyCompare]
  | some a, some b => rw [keyCompare_some_desc]; simp

theorem keyCompare_trans {isAsc : Bool} {x y z : Option String}
    (hxy : keyCompare isAsc x y ≤ 0) (hyz : keyCompare isAsc y z ≤ 0) :
    keyCompare isAsc x z ≤ 0 := by
  cases isAsc
  · rw [keyCompare_desc_iff] at hxy hyz ⊢
    rcases hxy with h | ⟨a, b, hx, hy, hba⟩
    · exact Or.inl h
    · rcases hyz with h | ⟨b', c, hy', hz, hcb⟩
      · rw [hy] at h; exact absurd h (by simp)
      · rw [hy] at hy'
        obtain rfl : b' = b := by injection hy'.symm
        exact Or.inr ⟨a, c, hx, hz, le_trans hcb hba⟩
  · rw [keyCompare_asc_iff] at hxy hyz ⊢
    rcases hyz with h | ⟨b, c, hy, hz, hbc⟩
    · exact Or.inl h
    · rcases hxy with h | ⟨a, b', hx, hy', hab⟩
      · rw [hy] at h; exact absurd h (by simp)
      · rw [hy] at hy'
        obtain rfl : b = b' := by injection hy'
        exact Or.inr ⟨a, c, hx, hz, le_trans hab hbc⟩

theorem keyCompare_total (isAsc : Bool) (x y : Option String) :
    keyCompare isAsc x y ≤ 0 ∨ keyCompare isAsc y x ≤ 0 := by
  cases isAsc
  · rw [keyCompare_desc_iff, keyCompare_desc_iff]
    match x, y with
    | none, y => exact Or.inl (Or.inl rfl)
    | some a, none => exact Or.inr (Or.inl rfl)
    | some a, some b =>
      rcases le_total b a with h | h
      · exact Or.inl (Or.inr ⟨a, b, rfl, rfl, h⟩)
      · exact Or.inr (Or.inr ⟨b, a, rfl, rfl, h⟩)
  · rw [keyCompare_asc_iff, keyCompare_asc_iff]
    match x, y with
    | x, none => exact Or.inl (Or.inl rfl)
    | none, some b => exact Or.inr (Or.inl rfl)
    | some a, some b =>
      rcases le_total a b with h | h
      · exact Or.inl (Or.inr ⟨a, b, rfl, rfl, h⟩)
      · exact Or.inr (Or.inr ⟨b, a, rfl, rfl, h⟩)

theorem decide_data_lt_eq (a b : String) :
    decide (a.data < b.data) = decide (a < b) := by
  apply decide_eq_decide.mpr
  exact String.lt_iff_toList_lt.symm

theorem sortCompare_eq_keyCompare (isAsc : Bool) {a b : Cell}
    (ha : cellIsStrOrNull a = true) (hb : cellIsStrOrNull b = true) :
    sortCompare isAsc a b = keyCompare isAsc (cellKey a) (cellKey b) := by
  cases a with
  | num n => simp [cellIsStrOrNull] at ha
  | null =>
    cases b with
    | num n => simp [cellIsStrOrNull] at hb
    | null => simp [sortCompare, cellNullish, cellKey, keyCompare]
    | str t =>
      by_cases ht : t = ""
      · simp [sortCompare, cellNullish, cellKey, keyCompare, ht]
      · simp [sortCompare, cellNullish, cellKey, keyCompare, ht]
  | str s =>
    cases b with
    | num n => simp [cellIsStrOrNull] at hb
    | null =>
      by_cases hs : s = ""
      · simp [sortCompare, cellNullish, cellKey, keyCompare, hs]
      · simp [sortCompare, cellNullish, cellKey, keyCompare, hs]
    | str t =>
      by_cases hs : s = "" <;> by_cases ht : t = "" <;>
        simp [sortCompare, cellNullish, cellKey, keyCompare, lowerIfStr, jsLtCell, hs, ht,
          decide_data_lt_eq]

theorem goodLe_trans (f : String) (isAsc : Bool) (a b c : GoodRow f)
    (hab : goodLe f isAsc a b = true) (hbc : goodLe f isAsc b c = true) :
    goodLe f isAsc a c = true := by
  simp only [goodLe, rowLe, decide_eq_true_eq] at hab hbc ⊢
  rw [sortCompare_eq_keyCompare isAsc a.2 b.2] at hab
  rw [sortCompare_eq_keyCompare isAsc b.2 c.2] at hbc
  rw [sortCompare_eq_keyCompare isAsc a.2 c.2]
  exact keyCompare_trans hab hbc

theorem goodLe_total (f : String) (isAsc : Bool) (a b : GoodRow f) :
    (goodLe f isAsc a b || goodLe f isAsc b a) = true := by
  simp only [goodLe, rowLe, Bool.or_eq_true, decide_eq_true_eq]
  rw [sortCompare_eq_keyCompare isAsc a.2 b.2, sortCompare_eq_keyCompare isAsc b.2 a.2]
  exact keyCompare_total isAsc _ _

theorem sortRows_transport (rows : List Row) (f : String) (isAsc : Bool)
    (h : ∀ r ∈ rows, cellIsStrOrNull (rowGet r f) = true) :
    ∃ l' : List (GoodRow f), l'.map Subtype.val = rows ∧
      sortRows rows f isAsc = (l'.mergeSort (goodLe f isAsc)).map Subtype.val := by
  refine ⟨rows.attach.map (fun x => ⟨x.1, h x.1 x.2⟩), ?_, ?_⟩
  · calc (rows.attach.map (fun x => (⟨x.1, h x.1 x.2⟩ : GoodRow f))).map Subtype.val
        = rows.attach.map Subtype.val := by rw [List.map_map]; rfl
      _ = rows := List.attach_map_subtype_val rows
  · have hmap : ((rows.attach.map (fun x => (⟨x.1, h x.1 x.2⟩ : GoodRow f))).mergeSort
        (goodLe f isAsc)).map Subtype.val =
        ((rows.attach.map (fun x => (⟨x.1, h x.1 x.2⟩ : GoodRow f))).map Subtype.val).mergeSort
          (rowLe f isAsc) :=
      List.map_mergeSort (fun a _ b _ => rfl)
    rw [hmap]
    have hl : (rows.attach.map (fun x => (⟨x.1, h x.1 x.2⟩ : GoodRow f))).map Subtype.val =
        rows := by
      calc (rows.attach.map (fun x => (⟨x.1, h x.1 x.2⟩ : GoodRow f))).map Subtype.val
          = rows.attach.map Subtype.val := by rw [List.map_map]; rfl
        _ = rows := List.attach_map_subtype_val rows
    rw [hl]
    rfl

theorem sortCompare_null_nonnull (isAsc : Bool) {x y : Cell} (hx : cellNullish x = true)
    (hy : cellNullish y = false) : sortCompare isAsc x y = (if isAsc then 1 else -1) := by
  simp [sortCompare, hx, hy]

theorem sortCompare_nonnull_null (isAsc : Bool) {x y : Cell} (hx : cellNullish x = false)
    (hy : cellNullish y = true) : sortCompare isAsc x y = (if isAsc then -1 else 1) := by
  simp [sortCompare, hx, hy]

theorem sortRows_pairwise (rows : List Row) (f : String) (isAsc : Bool)
    (h : ∀ r ∈ rows, cellIsStrOrNull (rowGet r f) = true) :
    (sortRows rows f isAsc).Pairwise
      (fun a b => sortCompare isAsc (rowGet a f) (rowGet b f) ≤ 0) := by
  obtain ⟨l', -, hsort⟩ := sortRows_transport rows f isAsc h
  rw [hsort]
  have hp : (l'.mergeSort (goodLe f isAsc)).Pairwise
      (fun a b => goodLe f isAsc a b = true) :=
    List.sorted_mergeSort (goodLe_trans f isAsc) (goodLe_total f isAsc) l'
  exact hp.map Subtype.val (fun a b hab => by
    simpa [goodLe, rowLe, decide_eq_true_eq] using hab)

theorem sortRows_stable (rows : List Row) (f : String) (isAsc : Bool) (a b : Row)
    (h : ∀ r ∈ rows, cellIsStrOrNull (rowGet r f) = true)
    (hsub : List.Sublist [a, b] rows)
    (hle : sortCompare isAsc (rowGet a f) (rowGet b f) ≤ 0) :
    List.Sublist [a, b] (sortRows rows f isAsc) := by
  obtain ⟨l', hmapv, hsort⟩ := sortRows_transport rows f isAsc h
  rw [← hmapv] at hsub
  obtain ⟨l₂, hl₂, heq⟩ := List.sublist_map_iff.mp hsub
  match l₂, heq with
  | [x, y], heq =>
    simp only [List.map_cons, List.map_nil, List.cons.injEq, and_true] at heq
    obtain ⟨hxa, hyb⟩ := heq
    have hxy : goodLe f isAsc x y = true := by
      simp only [goodLe, rowLe, decide_eq_true_eq]
      rw [hxa, hyb] at hle
      exact hle
    have hpair : List.Sublist [x, y] (l'.mergeSort (goodLe f isAsc)) :=
      List.pair_sublist_mergeSort (goodLe_trans f isAsc) (goodLe_total f isAsc) hxy hl₂
    have := hpair.map Subtype.val
    simpa [hsort, hxa, hyb] using this

/-- C4 (amended): `handleSort` replaces the rows with a stable sort by the
comparator; on a text column, ties (in particular strings equal up to case —
comparison is case-insensitive) preserve the prior relative order, and
null/empty values sort last in ascending order but first in descending
order. -/
theorem claim_C4 :
    (∀ (st : ViewerState) (fieldName sortDirection : String),
      fieldName ≠ "" → st.tableData ≠ [] →
      (handleSort st fieldName sortDirection).tableData =
        sortRows st.tableData fieldName (sortDirection = "asc")) ∧
    (∀ (rows : List Row) (f : String),
      (∀ r ∈ rows, cellIsStrOrNull (rowGet r f) = true) →
      ∀ (i j : Fin (sortRows rows f true).length), i ≤ j →
      cellNullish (rowGet ((sortRows rows f true).get i) f) = true →
      cellNullish (rowGet ((sortRows rows f true).get j) f) = true) ∧
    (∀ (rows : List Row) (f : String),
      (∀ r ∈ rows, cellIsStrOrNull (rowGet r f) = true) →
      ∀ (i j : Fin (sortRows rows f false).length), i ≤ j →
      cellNullish (rowGet ((sortRows rows f false).get j) f) = true →
      cellNullish (rowGet ((sortRows rows f false).get i) f) = true) ∧
    (∀ (isAsc : Bool) (s t : String), s ≠ "" → t ≠ "" → jsToLower s = jsToLower t →
      sortCompare isAsc (Cell.str s) (Cell.str t) = 0) ∧
    (∀ (rows : List Row) (f : String) (isAsc : Bool) (a b : Row),
      (∀ r ∈ rows, cellIsStrOrNull (rowGet r f) = true) →
      List.Sublist [a, b] rows →
      sortCompare isAsc (rowGet a f) (rowGet b f) = 0 →
      List.Sublist [a, b] (sortRows rows f isAsc)) := by
  refine ⟨?_, ?_, ?_, ?_, ?_⟩
  · intro st fn dir h1 h2
    unfold handleSort
    rw [if_neg]
    · rintro (h | h)
      · exact h1 h
      · exact h2 (List.isEmpty_iff.mp h)
  · intro rows f h i j hij hnull
    rcases eq_or_lt_of_le hij with heq | hlt
    · rw [← heq]
      exact hnull
    · have hp := sortRows_pairwise rows f true h
      have hrel := List.pairwise_iff_get.mp hp i j hlt
      by_contra hc
      have hcf : cellNullish (rowGet ((sortRows rows f true).get j) f) = false := by
        revert hc
        cases cellNullish (rowGet ((sortRows rows f true).get j) f) <;> simp
      rw [sortCompare_null_nonnull true hnull hcf] at hrel
      simp at hrel
  · intro rows f h i j hij hnull
    rcases eq_or_lt_of_le hij with heq | hlt
    · rw [heq]
      exact hnull
    · have hp := sortRows_pairwise rows f false h
      have hrel := List.pairwise_iff_get.mp hp i j hlt
      by_contra hc
      have hcf : cellNullish (rowGet ((sortRows rows f false).get i) f) = false := by
        revert hc
        cases cellNullish (rowGet ((sortRows rows f false).get i) f) <;> simp
      rw [sortCompare_nonnull_null false hcf hnull] at hrel
      simp at hrel
  · intro isAsc s t hs ht h
    simp [sortCompare, cellNullish, hs, ht, lowerIfStr, jsLtCell, h, decide_data_lt_eq,
      lt_irrefl]
  · intro rows f isAsc a b h hsub htie
    exact sortRows_stable rows f isAsc a b h hsub (le_of_eq htie)

theorem claim_C4_witness :
    (∀ r ∈ [[("f", Cell.str "x")], [("f", Cell.str "X")]],
      cellIsStrOrNull (rowGet r "f") = true) ∧
    sortCompare true (rowGet [("f", Cell.str "x")] "f") (rowGet [("f", Cell.str "X")] "f") = 0 ∧
    List.Sublist [[("f", Cell.str "x")], [("f", Cell.str "X")]]
      (sortRows [[("f", Cell.str "x")], [("f", Cell.str "X")]] "f" true) := by
  refine ⟨by decide, by decide, ?_⟩
  exact claim_C4.2.2.2.2 [[("f", Cell.str "x")], [("f", Cell.str "X")]] "f" true
    [("f", Cell.str "x")] [("f", Cell.str "X")] (by decide)
    (List.Sublist.refl _) (by decide)

theorem claim_C4_counterexample :
    (handleSort { tableData := [[("f", Cell.str "b")], []] } "f" "desc").tableData =
      [[], [("f", Cell.str "b")]] ∧
    cellNullish (rowGet ([] : Row) "f") = true ∧
    cellNullish (rowGet [("f", Cell.str "b")] "f") = false := by
  refine ⟨?_, by decide, by decide⟩
  simp only [handleSort, sortRows]
  simp +decide [List.mergeSort, List.splitInTwo, List.splitAt, List.splitAt.go, List.merge,
    rowLe, sortCompare, rowGet, cellNullish, lowerIfStr, jsLtCell, List.find?, List.isEmpty]
